import Mathlib

/-!
Shallow embedding of the 2D ray-tracing core (`raytracing.py`): ray states with a
not-a-number sentinel, the angle-wrapping helper, the homogeneous coordinate
transform of an optical element, ray/element intersection with aperture test,
the mirror reflection law, and the ray-propagation pipeline.

Floating-point numbers are modelled by `Option ℝ`: `none` stands for IEEE NaN
(the code's termination sentinel), `some r` for a finite value.  Arithmetic and
comparisons follow IEEE NaN semantics: any arithmetic with NaN yields NaN, and
every ordered comparison against NaN is false.
-/

open Classical

/-- A float value: `none` models not-a-number, `some r` a real value. -/
abbrev RF : Type := Option ℝ

/-- NaN-propagating addition. -/
def RF.add : RF → RF → RF
  | some a, some b => some (a + b)
  | _, _ => none

/-- NaN-propagating subtraction. -/
def RF.sub : RF → RF → RF
  | some a, some b => some (a - b)
  | _, _ => none

/-- NaN-propagating multiplication by a real scalar on the left. -/
def RF.scale : ℝ → RF → RF
  | c, some a => some (c * a)
  | _, none => none

/-- NaN-propagating multiplication by a real scalar on the right. -/
def RF.mulR : RF → ℝ → RF
  | some a, c => some (a * c)
  | none, _ => none

/-- `v > c` with IEEE semantics: false when `v` is NaN. -/
def RF.gtR (v : RF) (c : ℝ) : Prop := ∃ r, v = some r ∧ c < r

/-- `v < c` with IEEE semantics: false when `v` is NaN. -/
def RF.ltR (v : RF) (c : ℝ) : Prop := ∃ r, v = some r ∧ r < c

/-- A ray state: x-coordinate, y-coordinate and propagation angle (radians).
A ray whose angle is NaN is terminated. -/
structure RayState where
  x : RF
  y : RF
  ang : RF

/-- The fully terminated marker `np.ones((3,1)) * nan`: all three entries NaN. -/
def termState : RayState := ⟨none, none, none⟩

/-- `angle_wrap` from `raytracing.py`: a single conditional shift by `2π`. -/
noncomputable def angle_wrap (angle : ℝ) : ℝ :=
  if Real.pi < angle then angle - 2 * Real.pi
  else if angle < -Real.pi then angle + 2 * Real.pi
  else angle

/-- The rotation part `R` built in `create_xform`. -/
noncomputable def xformR (theta : ℝ) : Matrix (Fin 3) (Fin 3) ℝ :=
  ![![Real.cos theta, -Real.sin theta, 0],
    ![Real.sin theta, Real.cos theta, 0],
    ![0, 0, 1]]

/-- The translation part `T` built in `create_xform`. -/
def xformT (pos : ℝ × ℝ) : Matrix (Fin 3) (Fin 3) ℝ :=
  ![![1, 0, -pos.1],
    ![0, 1, -pos.2],
    ![0, 0, 1]]

/-- `create_xform`: the forward transform `H = R.dot(T)`. -/
noncomputable def create_xform (theta : ℝ) (pos : ℝ × ℝ) : Matrix (Fin 3) (Fin 3) ℝ :=
  xformR theta * xformT pos

/-- Applying a 3×3 real matrix to a homogeneous vector with possibly-NaN
entries, entry by entry as `numpy.dot` does. -/
noncomputable def matApply (M : Matrix (Fin 3) (Fin 3) ℝ) (v : Fin 3 → RF) (i : Fin 3) : RF :=
  RF.add (RF.add (RF.scale (M i 0) (v 0)) (RF.scale (M i 1) (v 1))) (RF.scale (M i 2) (v 2))

/-- An optical element: aperture, position, orientation, the stored transforms
`H`/`Hinv`, and the subclass-specific angle law `_get_angle(point, lmb, dest)`. -/
structure OpticalObject where
  aperture : ℝ
  pos : ℝ × ℝ
  theta : ℝ
  H : Matrix (Fin 3) (Fin 3) ℝ
  Hinv : Matrix (Fin 3) (Fin 3) ℝ
  get_angle : RayState → ℝ → RayState → RF

/-- `OpticalObject.__init__`: store the parameters, compute `H = create_xform()`
and `Hinv = lin.inv(H)` once. -/
noncomputable def OpticalObject.make (aperture : ℝ) (pos : ℝ × ℝ) (theta : ℝ)
    (g : RayState → ℝ → RayState → RF) : OpticalObject :=
  ⟨aperture, pos, theta, create_xform theta pos, (create_xform theta pos)⁻¹, g⟩

/-- `OpticalObject.get_intersection`: short-circuit on a NaN angle, otherwise
map the origin to the local frame, intersect with the plane `x_local = 0`,
apply the strict-inequality aperture test, and map back through `Hinv`. -/
noncomputable def OpticalObject.get_intersection (obj : OpticalObject)
    (origx origy : RF) (theta : RF) : RayState :=
  match theta with
  | none => termState
  | some t =>
    let pnew := matApply obj.H ![origx, origy, some 1]
    let theta_new := t + obj.theta
    let y_new_tf := RF.sub (pnew 1) (RF.mulR (pnew 0) (Real.tan theta_new))
    let flag : RF :=
      if RF.gtR y_new_tf (obj.aperture / 2) ∨ RF.ltR y_new_tf (-(obj.aperture / 2))
      then none else some 1
    let pfinal := matApply obj.Hinv ![some 0, y_new_tf, some 1]
    ⟨pfinal 0, pfinal 1, flag⟩

/-- `OpticalObject.propagate`: intersect, short-circuit if the intersection is
flagged NaN, otherwise fill in the angle from the element's angle law. -/
noncomputable def OpticalObject.propagate (obj : OpticalObject)
    (point : RayState) (lmb : ℝ) : RayState :=
  let dest := obj.get_intersection point.x point.y point.ang
  if dest.ang = none then dest
  else ⟨dest.x, dest.y, obj.get_angle point lmb dest⟩

/-- `Mirror._get_angle`: `angle_wrap(pi - point[2] - 2*theta)`, NaN-propagating
in the incoming angle (`angle_wrap` returns NaN unchanged). -/
noncomputable def mirror_angle (theta : ℝ) (point : RayState) (lmb : ℝ)
    (dest : RayState) : RF :=
  match point.ang with
  | some t => some (angle_wrap (Real.pi - t - 2 * theta))
  | none => none

/-- `Mirror.__init__`: an optical object whose angle law is the reflection law. -/
noncomputable def Mirror.make (aperture : ℝ) (pos : ℝ × ℝ) (theta : ℝ) : OpticalObject :=
  OpticalObject.make aperture pos theta (mirror_angle theta)

/-- The history of one ray through the component list: column 0 is the input,
column `i` is component `i`'s `propagate` applied to column `i-1`. -/
noncomputable def propagate_one (comps : List OpticalObject) (ray : RayState)
    (lmb : ℝ) : List RayState :=
  match comps with
  | [] => [ray]
  | c :: cs => ray :: propagate_one cs (c.propagate ray lmb) lmb

/-- `propagate_rays`: one history per input ray, in input order. -/
noncomputable def propagate_rays (comps : List OpticalObject) (rays : List RayState)
    (lmb : ℝ) : List (List RayState) :=
  rays.map (fun r => propagate_one comps r lmb)

/-- The local intersection ordinate `y_new_tf` for a finite ray, as a real. -/
noncomputable def local_y (obj : OpticalObject) (x y t : ℝ) : ℝ :=
  Matrix.mulVec obj.H ![x, y, 1] 1 -
    Matrix.mulVec obj.H ![x, y, 1] 0 * Real.tan (t + obj.theta)

/-- The exact inverse of `create_xform theta pos`. -/
noncomputable def xformInv (theta : ℝ) (pos : ℝ × ℝ) : Matrix (Fin 3) (Fin 3) ℝ :=
  ![![Real.cos theta, Real.sin theta, pos.1],
    ![-Real.sin theta, Real.cos theta, pos.2],
    ![0, 0, 1]]

/-! ### Helper lemmas -/

theorem RF.gtR_some (r c : ℝ) : RF.gtR (some r) c ↔ c < r := by
  simp [RF.gtR]

theorem RF.ltR_some (r c : ℝ) : RF.ltR (some r) c ↔ r < c := by
  simp [RF.ltR]

theorem angle_wrap_bounds_aux (θ : ℝ) (h1 : -(3 * Real.pi) < θ) (h2 : θ ≤ 3 * Real.pi) :
    -Real.pi ≤ angle_wrap θ ∧ angle_wrap θ ≤ Real.pi := by
  have hpi := Real.pi_pos
  unfold angle_wrap
  split_ifs with ha hb
  · constructor <;> linarith
  · constructor <;> linarith
  · constructor <;> linarith

theorem angle_wrap_id_aux (θ : ℝ) (h1 : -Real.pi ≤ θ) (h2 : θ ≤ Real.pi) :
    angle_wrap θ = θ := by
  unfold angle_wrap
  rw [if_neg (by linarith), if_neg (by linarith)]

theorem matApply_some (M : Matrix (Fin 3) (Fin 3) ℝ) (x y z : ℝ) (i : Fin 3) :
    matApply M ![some x, some y, some z] i = some (Matrix.mulVec M ![x, y, z] i) := by
  simp [matApply, RF.add, RF.scale, Matrix.mulVec, Matrix.dotProduct, Fin.sum_univ_three,
    Matrix.vecHead, Matrix.vecTail, mul_comm, add_assoc]

theorem get_intersection_finite (obj : OpticalObject) (x y t : ℝ) :
    obj.get_intersection (some x) (some y) (some t) =
      ⟨some (Matrix.mulVec obj.Hinv ![0, local_y obj x y t, 1] 0),
       some (Matrix.mulVec obj.Hinv ![0, local_y obj x y t, 1] 1),
       if obj.aperture / 2 < local_y obj x y t ∨ local_y obj x y t < -(obj.aperture / 2)
       then none else some 1⟩ := by
  unfold OpticalObject.get_intersection
  have hy : RF.sub (matApply obj.H ![some x, some y, some 1] 1)
      (RF.mulR (matApply obj.H ![some x, some y, some 1] 0) (Real.tan (t + obj.theta)))
      = some (local_y obj x y t) := by
    rw [matApply_some, matApply_some]
    simp [RF.sub, RF.mulR, local_y]
  simp only [hy]
  have hflag : (if RF.gtR (some (local_y obj x y t)) (obj.aperture / 2) ∨
        RF.ltR (some (local_y obj x y t)) (-(obj.aperture / 2)) then (none : RF) else some 1) =
      (if obj.aperture / 2 < local_y obj x y t ∨ local_y obj x y t < -(obj.aperture / 2)
       then (none : RF) else some 1) := by
    by_cases h : obj.aperture / 2 < local_y obj x y t ∨ local_y obj x y t < -(obj.aperture / 2)
    · rw [if_pos h, if_pos (by rwa [RF.gtR_some, RF.ltR_some])]
    · rw [if_neg h, if_neg (by rwa [RF.gtR_some, RF.ltR_some])]
  rw [hflag, matApply_some, matApply_some]

theorem mulVec_one_vec (v : Fin 3 → ℝ) (i : Fin 3) :
    Matrix.mulVec (1 : Matrix (Fin 3) (Fin 3) ℝ) v i = v i := by
  rw [Matrix.one_mulVec]

theorem make_H (a : ℝ) (p : ℝ × ℝ) (θ : ℝ) (g : RayState → ℝ → RayState → RF) :
    (OpticalObject.make a p θ g).H = create_xform θ p := rfl

theorem make_Hinv (a : ℝ) (p : ℝ × ℝ) (θ : ℝ) (g : RayState → ℝ → RayState → RF) :
    (OpticalObject.make a p θ g).Hinv = (create_xform θ p)⁻¹ := rfl

theorem make_aperture (a : ℝ) (p : ℝ × ℝ) (θ : ℝ) (g : RayState → ℝ → RayState → RF) :
    (OpticalObject.make a p θ g).aperture = a := rfl

theorem make_theta (a : ℝ) (p : ℝ × ℝ) (θ : ℝ) (g : RayState → ℝ → RayState → RF) :
    (OpticalObject.make a p θ g).theta = θ := rfl

theorem xformR_zero : xformR 0 = 1 := by
  ext i j
  fin_cases i <;> fin_cases j <;>
    simp [xformR, Matrix.one_apply, Matrix.vecHead, Matrix.vecTail]

theorem xformT_zero : xformT (0, 0) = 1 := by
  ext i j
  fin_cases i <;> fin_cases j <;>
    simp [xformT, Matrix.one_apply, Matrix.vecHead, Matrix.vecTail]

theorem create_xform_id : create_xform 0 (0, 0) = 1 := by
  rw [create_xform, xformR_zero, xformT_zero, one_mul]

theorem make_Hinv_id (a : ℝ) (g : RayState → ℝ → RayState → RF) :
    (OpticalObject.make a (0, 0) 0 g).Hinv = 1 := by
  rw [make_Hinv, create_xform_id, inv_one]

theorem local_y_idframe (a : ℝ) (g : RayState → ℝ → RayState → RF) (x y t : ℝ) :
    local_y (OpticalObject.make a (0, 0) 0 g) x y t = y - x * Real.tan t := by
  unfold local_y
  rw [make_H, create_xform_id, make_theta, add_zero]
  simp [Matrix.one_mulVec]

theorem get_intersection_idframe (a : ℝ) (g : RayState → ℝ → RayState → RF) (x y t : ℝ) :
    (OpticalObject.make a (0, 0) 0 g).get_intersection (some x) (some y) (some t) =
      ⟨some 0, some (y - x * Real.tan t),
       if a / 2 < y - x * Real.tan t ∨ y - x * Real.tan t < -(a / 2)
       then none else some 1⟩ := by
  rw [get_intersection_finite, local_y_idframe, make_Hinv_id, make_aperture]
  simp [Matrix.one_mulVec]

theorem create_xform_mul_inv (θ : ℝ) (p : ℝ × ℝ) :
    create_xform θ p * xformInv θ p = 1 := by
  have h := Real.sin_sq_add_cos_sq θ
  ext i j
  fin_cases i <;> fin_cases j <;>
    simp [create_xform, xformR, xformT, xformInv, Matrix.mul_apply, Fin.sum_univ_three,
      Matrix.one_apply, Matrix.vecHead, Matrix.vecTail] <;>
    first
    | ring1
    | linear_combination h

theorem create_xform_inv_eq (θ : ℝ) (p : ℝ × ℝ) :
    (create_xform θ p)⁻¹ = xformInv θ p :=
  Matrix.inv_eq_right_inv (create_xform_mul_inv θ p)

theorem inv_mul_create_xform (θ : ℝ) (p : ℝ × ℝ) :
    xformInv θ p * create_xform θ p = 1 :=
  Matrix.mul_eq_one_comm.mp (create_xform_mul_inv θ p)

theorem propagate_term_aux (obj : OpticalObject) (s : RayState) (lmb : ℝ)
    (h : s.ang = none) : obj.propagate s lmb = termState := by
  unfold OpticalObject.propagate OpticalObject.get_intersection
  simp only [h]
  simp [termState]

theorem propagate_one_length (comps : List OpticalObject) (ray : RayState) (lmb : ℝ) :
    (propagate_one comps ray lmb).length = comps.length + 1 := by
  induction comps generalizing ray with
  | nil => rfl
  | cons c cs ih => simp [propagate_one, ih]

theorem propagate_one_head (comps : List OpticalObject) (ray : RayState) (lmb : ℝ) :
    (propagate_one comps ray lmb)[0]? = some ray := by
  cases comps <;> simp [propagate_one]

theorem propagate_one_step_aux (comps : List OpticalObject) (ray : RayState) (lmb : ℝ) :
    ∀ i c s, comps[i]? = some c → (propagate_one comps ray lmb)[i]? = some s →
      (propagate_one comps ray lmb)[i+1]? = some (c.propagate s lmb) := by
  induction comps generalizing ray with
  | nil =>
    intro i c s hc
    simp at hc
  | cons c0 cs ih =>
    intro i c s hc hs
    cases i with
    | zero =>
      rw [List.getElem?_cons_zero, Option.some_inj] at hc
      rw [show propagate_one (c0 :: cs) ray lmb
            = ray :: propagate_one cs (c0.propagate ray lmb) lmb from rfl,
          List.getElem?_cons_zero, Option.some_inj] at hs
      rw [show propagate_one (c0 :: cs) ray lmb
            = ray :: propagate_one cs (c0.propagate ray lmb) lmb from rfl,
          List.getElem?_cons_succ, propagate_one_head, hc, hs]
    | succ i =>
      rw [List.getElem?_cons_succ] at hc
      rw [show propagate_one (c0 :: cs) ray lmb
            = ray :: propagate_one cs (c0.propagate ray lmb) lmb from rfl,
          List.getElem?_cons_succ] at hs
      rw [show propagate_one (c0 :: cs) ray lmb
            = ray :: propagate_one cs (c0.propagate ray lmb) lmb from rfl,
          List.getElem?_cons_succ]
      exact ih (c0.propagate ray lmb) i c s hc hs

theorem propagate_one_term_all (cs : List OpticalObject) (lmb : ℝ) :
    ∀ j, j ≤ cs.length → (propagate_one cs termState lmb)[j]? = some termState := by
  induction cs with
  | nil =>
    intro j hj
    rw [Nat.le_zero.mp hj]
    simp [propagate_one]
  | cons c cs ih =>
    intro j hj
    rw [show propagate_one (c :: cs) termState lmb
          = termState :: propagate_one cs (c.propagate termState lmb) lmb from rfl,
        propagate_term_aux c termState lmb rfl]
    cases j with
    | zero => simp
    | succ j =>
      rw [List.getElem?_cons_succ]
      exact ih j (by simpa using hj)

theorem mirror_make_angle (a : ℝ) (p : ℝ × ℝ) (θ : ℝ) :
    (Mirror.make a p θ).get_angle = mirror_angle θ := rfl

theorem propagate_def (obj : OpticalObject) (point : RayState) (lmb : ℝ) :
    obj.propagate point lmb =
      if (obj.get_intersection point.x point.y point.ang).ang = none
      then obj.get_intersection point.x point.y point.ang
      else ⟨(obj.get_intersection point.x point.y point.ang).x,
            (obj.get_intersection point.x point.y point.ang).y,
            obj.get_angle point lmb (obj.get_intersection point.x point.y point.ang)⟩ := rfl

theorem mirror_idframe (a x y t : ℝ) :
    (Mirror.make a (0, 0) 0).get_intersection (some x) (some y) (some t) =
      ⟨some 0, some (y - x * Real.tan t),
       if a / 2 < y - x * Real.tan t ∨ y - x * Real.tan t < -(a / 2)
       then none else some 1⟩ :=
  get_intersection_idframe a (mirror_angle 0) x y t

/-! ### Claim theorems -/

/-- Claim C7 counterexample: the range claim fails as stated. `angle_wrap (-π)`
returns `-π`, which is not in the half-open interval `(-π, π]`, and
`angle_wrap 10` returns `10 - 2π > π` because the function shifts only once. -/
theorem angle_wrap_range_cex :
    ¬ (-Real.pi < angle_wrap (-Real.pi) ∧ angle_wrap (-Real.pi) ≤ Real.pi) ∧
    ¬ (-Real.pi < angle_wrap 10 ∧ angle_wrap 10 ≤ Real.pi) := by
  have hpi : Real.pi < 3.15 := Real.pi_lt_315
  have hpos := Real.pi_pos
  constructor
  · rw [angle_wrap_id_aux (-Real.pi) le_rfl (by linarith)]
    intro h
    exact lt_irrefl _ h.1
  · rw [show angle_wrap 10 = 10 - 2 * Real.pi from by
      unfold angle_wrap
      rw [if_pos (by linarith)]]
    intro h
    linarith [h.2]

/-- Claim C7 (amended): for every input angle in the interval `(-3π, 3π]`,
`angle_wrap` returns a value in the closed interval `[-π, π]`. -/
theorem angle_wrap_range (θ : ℝ) (h1 : -(3 * Real.pi) < θ) (h2 : θ ≤ 3 * Real.pi) :
    -Real.pi ≤ angle_wrap θ ∧ angle_wrap θ ≤ Real.pi :=
  angle_wrap_bounds_aux θ h1 h2

theorem angle_wrap_range_witness :
    -Real.pi ≤ angle_wrap 0 ∧ angle_wrap 0 ≤ Real.pi :=
  angle_wrap_range 0 (by linarith [Real.pi_pos]) (by linarith [Real.pi_pos])

/-- Claim C8 counterexample: `angle_wrap` is not idempotent at input `10`:
`angle_wrap 10 = 10 - 2π` still exceeds `π`, so a second application shifts
again. -/
theorem angle_wrap_idem_cex : angle_wrap (angle_wrap 10) ≠ angle_wrap 10 := by
  have hpi : Real.pi < 3.15 := Real.pi_lt_315
  have hpos := Real.pi_pos
  have h1 : angle_wrap 10 = 10 - 2 * Real.pi := by
    unfold angle_wrap
    rw [if_pos (by linarith)]
  have h2 : angle_wrap (10 - 2 * Real.pi) = 10 - 2 * Real.pi - 2 * Real.pi := by
    unfold angle_wrap
    rw [if_pos (by linarith)]
  rw [h1, h2]
  intro h
  linarith

/-- Claim C8 (amended): `angle_wrap` is idempotent on inputs in `(-3π, 3π]`,
where a single shift suffices to land in `[-π, π]`, on which `angle_wrap` is
the identity. -/
theorem angle_wrap_idem (θ : ℝ) (h1 : -(3 * Real.pi) < θ) (h2 : θ ≤ 3 * Real.pi) :
    angle_wrap (angle_wrap θ) = angle_wrap θ := by
  obtain ⟨hl, hr⟩ := angle_wrap_bounds_aux θ h1 h2
  exact angle_wrap_id_aux _ hl hr

theorem angle_wrap_idem_witness : angle_wrap (angle_wrap 0) = angle_wrap 0 :=
  angle_wrap_idem 0 (by linarith [Real.pi_pos]) (by linarith [Real.pi_pos])

/-- Claim C10: `angle_wrap` is the identity on the closed interval `[-π, π]`;
both guards use strict comparison, so neither endpoint is shifted. -/
theorem angle_wrap_identity (θ : ℝ) (h1 : -Real.pi ≤ θ) (h2 : θ ≤ Real.pi) :
    angle_wrap θ = θ :=
  angle_wrap_id_aux θ h1 h2

theorem angle_wrap_identity_witness : angle_wrap (-Real.pi) = -Real.pi :=
  angle_wrap_identity (-Real.pi) le_rfl (by linarith [Real.pi_pos])

/-- Claim C1: for every mirror and every non-terminated incoming ray state whose
intersection passes the aperture test, the outgoing angle equals
`angle_wrap (π - θ_in - 2·θ_element)` where `θ_in` is the original (un-offset)
incoming angle of the ray. -/
theorem mirror_propagate_angle (a : ℝ) (p : ℝ × ℝ) (θm : ℝ) (s : RayState) (t lmb : ℝ)
    (ht : s.ang = some t)
    (hpass : ((Mirror.make a p θm).get_intersection s.x s.y s.ang).ang ≠ none) :
    ((Mirror.make a p θm).propagate s lmb).ang
      = some (angle_wrap (Real.pi - t - 2 * θm)) := by
  rw [propagate_def, if_neg hpass]
  show mirror_angle θm s lmb ((Mirror.make a p θm).get_intersection s.x s.y s.ang)
      = some (angle_wrap (Real.pi - t - 2 * θm))
  unfold mirror_angle
  rw [ht]

theorem mirror_propagate_angle_witness :
    ((Mirror.make 2 (0, 0) 0).propagate ⟨some (-1), some 0, some 0⟩ 1).ang
      = some (angle_wrap (Real.pi - 0 - 2 * 0)) :=
  mirror_propagate_angle 2 (0, 0) 0 ⟨some (-1), some 0, some 0⟩ 0 1 rfl (by
    show ((Mirror.make 2 (0, 0) 0).get_intersection
        (some (-1)) (some 0) (some 0)).ang ≠ none
    rw [mirror_idframe]
    norm_num [Real.tan_zero]
    exact Option.some_ne_none 1)

/-- Claim C2: for every element and finite ray state, `get_intersection` maps
the origin into the local frame via `H`, takes the local intersection at
`x_local = 0`, `y_local = y₀ - x₀·tan(θ_in + θ_element)` (the content of
`local_y`), and returns the global point `H⁻¹·(0, y_local, 1)`. -/
theorem get_intersection_spec (obj : OpticalObject) (x y t : ℝ) :
    local_y obj x y t
        = Matrix.mulVec obj.H ![x, y, 1] 1
          - Matrix.mulVec obj.H ![x, y, 1] 0 * Real.tan (t + obj.theta) ∧
    (obj.get_intersection (some x) (some y) (some t)).x
        = some (Matrix.mulVec obj.Hinv ![0, local_y obj x y t, 1] 0) ∧
    (obj.get_intersection (some x) (some y) (some t)).y
        = some (Matrix.mulVec obj.Hinv ![0, local_y obj x y t, 1] 1) := by
  refine ⟨rfl, ?_, ?_⟩ <;> rw [get_intersection_finite]

/-- Claim C5: for every element, the stored forward transform is `H = R·T`
(rotation composed after translation, homogeneous form), and the stored inverse
is an exact two-sided inverse; both are fixed at construction in this
functional embedding. -/
theorem xform_invariants (a : ℝ) (p : ℝ × ℝ) (θ : ℝ) (g : RayState → ℝ → RayState → RF) :
    (OpticalObject.make a p θ g).H = xformR θ * xformT p ∧
    (OpticalObject.make a p θ g).H * (OpticalObject.make a p θ g).Hinv = 1 ∧
    (OpticalObject.make a p θ g).Hinv * (OpticalObject.make a p θ g).H = 1 := by
  refine ⟨rfl, ?_, ?_⟩
  · rw [make_H, make_Hinv, create_xform_inv_eq]
    exact create_xform_mul_inv θ p
  · rw [make_H, make_Hinv, create_xform_inv_eq]
    exact inv_mul_create_xform θ p

/-- Claim C4: termination is absorbing. If the incoming angle is NaN,
`propagate` returns the fully terminated marker; and in any history, once the
state at index `k` is terminated, every state at indices `k+1 .. N` is the very
same terminated marker. -/
theorem termination_absorbing :
    (∀ (obj : OpticalObject) (s : RayState) (lmb : ℝ), s.ang = none →
      obj.propagate s lmb = termState) ∧
    (∀ (comps : List OpticalObject) (ray : RayState) (lmb : ℝ) (k : ℕ) (s : RayState),
      (propagate_one comps ray lmb)[k]? = some s → s.ang = none →
      ∀ j, k < j → j ≤ comps.length →
        (propagate_one comps ray lmb)[j]? = some termState) := by
  constructor
  · exact propagate_term_aux
  · intro comps
    induction comps with
    | nil =>
      intro ray lmb k s hk hs j hkj hj
      simp at hj
      omega
    | cons c cs ih =>
      intro ray lmb k s hk hs j hkj hj
      cases k with
      | zero =>
        rw [show propagate_one (c :: cs) ray lmb
              = ray :: propagate_one cs (c.propagate ray lmb) lmb from rfl,
            List.getElem?_cons_zero, Option.some_inj] at hk
        subst hk
        obtain ⟨j', rfl⟩ : ∃ j', j = j' + 1 := ⟨j - 1, by omega⟩
        rw [show propagate_one (c :: cs) ray lmb
              = ray :: propagate_one cs (c.propagate ray lmb) lmb from rfl,
            List.getElem?_cons_succ, propagate_term_aux c ray lmb hs]
        exact propagate_one_term_all cs lmb j' (by simp at hj; omega)
      | succ k =>
        obtain ⟨j', rfl⟩ : ∃ j', j = j' + 1 := ⟨j - 1, by omega⟩
        rw [show propagate_one (c :: cs) ray lmb
              = ray :: propagate_one cs (c.propagate ray lmb) lmb from rfl,
            List.getElem?_cons_succ] at hk
        rw [show propagate_one (c :: cs) ray lmb
              = ray :: propagate_one cs (c.propagate ray lmb) lmb from rfl,
            List.getElem?_cons_succ]
        exact ih (c.propagate ray lmb) lmb k s hk hs j' (by omega) (by simp at hj; omega)

theorem termination_absorbing_witness :
    (Mirror.make 2 (0, 0) 0).propagate termState 1 = termState ∧
    (propagate_one [Mirror.make 2 (0, 0) 0] ⟨some 0, some 0, none⟩ 1)[1]?
      = some termState :=
  ⟨termination_absorbing.1 (Mirror.make 2 (0, 0) 0) termState 1 rfl,
   termination_absorbing.2 [Mirror.make 2 (0, 0) 0] ⟨some 0, some 0, none⟩ 1 0
     ⟨some 0, some 0, none⟩ (propagate_one_head _ _ _) rfl 1 Nat.zero_lt_one (by simp)⟩

/-- Claim C3: `propagate_rays` returns one history per input ray in input
order; each history has N+1 states, state 0 is the input ray, and state i+1 is
element i's `propagate` applied to state i; the degenerate cases N = 0 and an
empty ray list return the single-state history and the empty collection. -/
theorem propagate_rays_spec (comps : List OpticalObject) (rays : List RayState) (lmb : ℝ) :
    (propagate_rays comps rays lmb).length = rays.length ∧
    (rays = [] → propagate_rays comps rays lmb = []) ∧
    (∀ (r : ℕ) (ray : RayState), rays[r]? = some ray →
      (propagate_rays comps rays lmb)[r]? = some (propagate_one comps ray lmb) ∧
      (propagate_one comps ray lmb).length = comps.length + 1 ∧
      (propagate_one comps ray lmb)[0]? = some ray ∧
      (comps = [] → propagate_one comps ray lmb = [ray]) ∧
      (∀ (i : ℕ) (c : OpticalObject) (s : RayState),
        comps[i]? = some c → (propagate_one comps ray lmb)[i]? = some s →
        (propagate_one comps ray lmb)[i+1]? = some (c.propagate s lmb))) := by
  refine ⟨by simp [propagate_rays], by intro h; rw [h]; rfl, ?_⟩
  intro r ray hr
  refine ⟨?_, propagate_one_length comps ray lmb, propagate_one_head comps ray lmb,
    ?_, propagate_one_step_aux comps ray lmb⟩
  · unfold propagate_rays
    rw [List.getElem?_map, hr]
    rfl
  · intro h
    subst h
    rfl

theorem propagate_rays_spec_witness :
    (propagate_rays [Mirror.make 2 (0, 0) 0] [⟨some (-1), some 0, some 0⟩] 1)[0]?
        = some (propagate_one [Mirror.make 2 (0, 0) 0] ⟨some (-1), some 0, some 0⟩ 1) ∧
    (propagate_one [Mirror.make 2 (0, 0) 0] ⟨some (-1), some 0, some 0⟩ 1)[1]?
        = some ((Mirror.make 2 (0, 0) 0).propagate ⟨some (-1), some 0, some 0⟩ 1) := by
  obtain ⟨h1, h2, h3⟩ :=
    propagate_rays_spec [Mirror.make 2 (0, 0) 0] [⟨some (-1), some 0, some 0⟩] 1
  obtain ⟨ha, hb, hc, hd, he⟩ := h3 0 ⟨some (-1), some 0, some 0⟩ (by simp)
  exact ⟨ha, he 0 (Mirror.make 2 (0, 0) 0) ⟨some (-1), some 0, some 0⟩ (by simp) hc⟩

/-- Claim C6 counterexample: a ray whose local intersection is exactly
`aperture/2` (mirror with aperture 2 at the origin, ray from `(-1, 1)` at angle
`0` meets it at local ordinate `1 = 2/2`) is NOT terminated: the aperture test
uses strict inequalities, so the boundary is a hit and a finite outgoing angle
is produced. -/
theorem aperture_boundary_cex :
    ((Mirror.make 2 (0, 0) 0).propagate ⟨some (-1), some 1, some 0⟩ 1).ang ≠ none := by
  have hdest : (Mirror.make 2 (0, 0) 0).get_intersection (some (-1)) (some 1) (some 0)
      = ⟨some 0, some 1, some 1⟩ := by
    rw [mirror_idframe]
    norm_num [Real.tan_zero]
  rw [propagate_def]
  simp only [hdest, mirror_make_angle]
  simp [mirror_angle]

/-- Claim C6 (amended): for an element with nonnegative aperture, a ray whose
local intersection lies exactly on the aperture boundary `|y_local| =
aperture/2` is treated as a hit: `get_intersection` returns flag `1`, not a
terminated marker. -/
theorem aperture_boundary_hit (obj : OpticalObject) (x y t : ℝ)
    (ha : 0 ≤ obj.aperture)
    (hb : local_y obj x y t = obj.aperture / 2 ∨ local_y obj x y t = -(obj.aperture / 2)) :
    (obj.get_intersection (some x) (some y) (some t)).ang = some 1 := by
  rw [get_intersection_finite]
  have hcond : ¬ (obj.aperture / 2 < local_y obj x y t ∨
      local_y obj x y t < -(obj.aperture / 2)) := by
    rcases hb with hb | hb <;> rw [hb] <;> push_neg <;> constructor <;> linarith
  simp [hcond]

theorem aperture_boundary_hit_witness :
    ((Mirror.make 2 (0, 0) 0).get_intersection (some (-1)) (some 1) (some 0)).ang
      = some 1 := by
  have ha : (0 : ℝ) ≤ (Mirror.make 2 (0, 0) 0).aperture := by
    show (0 : ℝ) ≤ 2
    norm_num
  have hb : local_y (Mirror.make 2 (0, 0) 0) (-1) 1 0
      = (Mirror.make 2 (0, 0) 0).aperture / 2 := by
    show local_y (OpticalObject.make 2 (0, 0) 0 (mirror_angle 0)) (-1) 1 0 = 2 / 2
    rw [local_y_idframe]
    norm_num [Real.tan_zero]
  exact aperture_boundary_hit (Mirror.make 2 (0, 0) 0) (-1) 1 0 ha (Or.inl hb)

/-- Claim C9 counterexample: an element with aperture exactly `0` does NOT
reject every ray: a ray whose local intersection ordinate is exactly `0`
passes the strict-inequality aperture test and receives a finite outgoing
angle. -/
theorem degenerate_aperture_cex :
    ((Mirror.make 0 (0, 0) 0).propagate ⟨some (-1), some 0, some 0⟩ 1).ang ≠ none := by
  have hdest : (Mirror.make 0 (0, 0) 0).get_intersection (some (-1)) (some 0) (some 0)
      = ⟨some 0, some 0, some 1⟩ := by
    rw [mirror_idframe]
    norm_num [Real.tan_zero]
  rw [propagate_def]
  simp only [hdest, mirror_make_angle]
  simp [mirror_angle]

/-- Claim C9 (amended): construction with a degenerate aperture raises no error
(every operation is total), an element with aperture `< 0` terminates every
finite ray, and an element with aperture `= 0` terminates every finite ray
whose local intersection ordinate is nonzero (a ray meeting the element exactly
at its centre still passes the strict-inequality test). -/
theorem degenerate_aperture_rejects (obj : OpticalObject) (x y t lmb : ℝ)
    (ha : obj.aperture < 0 ∨ (obj.aperture = 0 ∧ local_y obj x y t ≠ 0)) :
    (obj.propagate ⟨some x, some y, some t⟩ lmb).ang = none := by
  have hcond : obj.aperture / 2 < local_y obj x y t ∨
      local_y obj x y t < -(obj.aperture / 2) := by
    rcases ha with ha | ⟨ha, hy⟩
    · rcases le_or_lt 0 (local_y obj x y t) with h | h
      · left
        linarith
      · right
        linarith
    · rcases lt_trichotomy (local_y obj x y t) 0 with h | h | h
      · right
        rw [ha]
        linarith
      · exact absurd h hy
      · left
        rw [ha]
        linarith
  rw [propagate_def]
  have hdest : obj.get_intersection
      ((⟨some x, some y, some t⟩ : RayState).x) ((⟨some x, some y, some t⟩ : RayState).y)
      ((⟨some x, some y, some t⟩ : RayState).ang)
      = ⟨some (Matrix.mulVec obj.Hinv ![0, local_y obj x y t, 1] 0),
         some (Matrix.mulVec obj.Hinv ![0, local_y obj x y t, 1] 1), none⟩ := by
    show obj.get_intersection (some x) (some y) (some t) = _
    rw [get_intersection_finite, if_pos hcond]
  rw [hdest]
  simp

theorem degenerate_aperture_rejects_witness :
    ((Mirror.make (-2) (0, 0) 0).propagate ⟨some (-1), some 0, some 0⟩ 1).ang = none :=
  degenerate_aperture_rejects (Mirror.make (-2) (0, 0) 0) (-1) 0 0 1
    (Or.inl (by show (-2 : ℝ) < 0; norm_num))
